import Mathlib

/-!
Verification of the media-conversion pipeline of `eyn_python`
(`src/eyn_python/convert/core.py`), shallowly embedded in Lean.

Modelling conventions:
* Python `str` values are Lean `String`s; path file names are `List Char`
  so that `pathlib` stem/suffix surgery can be reasoned about directly.
* A `pathlib.Path` is a `PyPath`: the list of parent directory components
  plus the final name.  `Path.resolve()` is modelled as the identity (each
  path denotes its own file; symlinks are outside the model).
* The filesystem is a map `PyPath → Option FileData`; directories are not
  tracked (`ensure_dir` only creates directories, never files).
* External processes (`ffmpeg`, `ffprobe`) are parameters: the probe result
  is a pair of optional codec names, the encoder run is an exit code
  together with the file data it leaves at its output path.
-/

namespace EynConvert

/-- A file-name, as the list of its characters (Python `str`). -/
abbrev Name := List Char

/-- Characters of a string literal. -/
def chars (s : String) : Name := s.toList

/-- Python `str.lower()` on a character list. -/
def low (n : Name) : Name := n.map Char.toLower

/-- Split a name at its last dot: `some (p, s)` with `l = p ++ '.' :: s`
and no dot in `s`; `none` when the name has no dot. -/
def splitLast : Name → Option (Name × Name)
  | [] => none
  | c :: rest =>
    match splitLast rest with
    | some (p, s) => some (c :: p, s)
    | none => if c = '.' then some ([], rest) else none

/-- `pathlib.PurePath.suffix`: the extension from the last dot, but only when
that dot is neither the first nor the last character (`0 < i < len - 1`). -/
def nameSuffix (n : Name) : Name :=
  match splitLast n with
  | some (p, s) => if p ≠ [] ∧ s ≠ [] then '.' :: s else []
  | none => []

/-- `pathlib.PurePath.stem`: the name with `nameSuffix` removed. -/
def nameStem (n : Name) : Name :=
  match splitLast n with
  | some (p, s) => if p ≠ [] ∧ s ≠ [] then p else n

  | none => n

/-- `pathlib.PurePath.with_suffix(suf)` on a file name: drop the old suffix
(if any) and append `suf`. -/
def withSuffix (n : Name) (suf : Name) : Name :=
  nameStem n ++ suf

/-- A `pathlib.Path`: parent directory components and the final name.
`resolve()` is the identity in this model. -/
structure PyPath where
  dir : List Name
  name : Name
deriving DecidableEq, Repr

/-- `str(path)`: components joined by `/`. -/
def pathStr (p : PyPath) : String :=
  String.intercalate "/" ((p.dir ++ [p.name]).map String.mk)

/-- `ConvertVideoSettings` from `eyn_python.config`, with the optional types
that `_VideoSettingsProto` in `convert/core.py` reads through `getattr`. -/
structure ConvertVideoSettings where
  crf : Int
  preset : String
  tune : Option String
  video_codec : String
  audio_codec : Option String
  audio_bitrate : Option String
deriving DecidableEq, Repr

/-- `ConvertSettings` from `eyn_python.config`: target format, recursion
flag, optional output directory (as directory components), video settings. -/
structure ConvertSettings where
  «to» : String
  recursive : Bool
  output_dir : Option (List Name)
  video : ConvertVideoSettings
deriving DecidableEq, Repr

/-- `ConvertJob` from `convert/core.py`. -/
structure ConvertJob where
  src : PyPath
  dst : PyPath
  settings : ConvertSettings
deriving DecidableEq, Repr

/-- Python `str.lower()` (per-character lowercasing). -/
def pyLower (s : String) : String := String.mk (low s.toList)

/-- Whether `p` is a prefix of `n`. -/
def startsChars : Name → Name → Bool
  | [], _ => true
  | _ :: _, [] => false
  | p :: ps, c :: cs => p = c && startsChars ps cs

/-- Python `s.startswith(px)`. -/
def pyStarts (s px : String) : Bool := startsChars px.toList s.toList

/-- Python `x or d` for an optional string (`None` and `""` are falsy). -/
def pyStrOr (x : Option String) (d : String) : String :=
  match x with
  | none => d
  | some s => if s = "" then d else s

/-- Python truthiness of an optional string. -/
def pyTruthy (x : Option String) : Bool :=
  match x with
  | none => false
  | some s => s ≠ ""

/-- `_container_allows_codecs(container, vcodec, acodec)` from
`convert/core.py`.  Note the source first rebinds `v = (vcodec or "").lower()`,
so `v` is a `str` from then on and the audio-only branches, which test
`v is None`, compare a `str` against `None`: that test is always `False`. -/
def containerAllowsCodecs (container : String) (vcodec acodec : Option String) : Bool :=
  let c := pyLower container
  let v := pyLower (pyStrOr vcodec "")
  let vIsNone : Bool := false
  let a := pyLower (pyStrOr acodec "")
  if c = "mp4" || c = ".mp4" then
    (v = "h264" || v = "hevc" || v = "h265" || v = "av1") && (a = "aac" || a = "mp3")
  else if c = "mov" || c = ".mov" then
    (v = "h264" || v = "hevc" || v = "h265" || v = "prores") &&
      (a = "aac" || a = "pcm_s16le" || a = "pcm_s24le")
  else if c = "webm" || c = ".webm" then
    (v = "vp8" || v = "vp9" || v = "av1") && (a = "vorbis" || a = "opus")
  else if c = "mkv" || c = ".mkv" then
    true
  else if c = "m4a" || c = ".m4a" then
    vIsNone && (a = "aac" || a = "alac")
  else if c = "mp3" || c = ".mp3" then
    vIsNone && a = "mp3"
  else if c = "ogg" || c = ".ogg" then
    vIsNone && (a = "vorbis" || a = "opus")
  else if c = "flac" || c = ".flac" then
    vIsNone && a = "flac"
  else if c = "wav" || c = ".wav" then
    vIsNone && pyStarts a "pcm_"
  else
    false

/-- Python `s.lstrip(".")`. -/
def lstripDots (n : Name) : Name := n.dropWhile (fun c => c = '.')

/-- `dst.suffix.lstrip(".").lower()` as computed in `_build_args`. -/
def toExt (n : Name) : String := String.mk (low (lstripDots (nameSuffix n)))

/-- The canonical audio codec per audio-only extension (`acodec_by_ext`). -/
def acodecByExt (e : String) : String :=
  if e = "mp3" then "libmp3lame"
  else if e = "aac" then "aac"
  else if e = "flac" then "flac"
  else if e = "m4a" then "aac"
  else if e = "ogg" then "libvorbis"
  else "pcm_s16le"

/-- `_build_args(job, smart_copy=...)` from `convert/core.py`.  The two
external `ffprobe` reads (`_first_codec` of the `streams` array for video
and audio) are the parameters `vIn` and `aIn`; everything else is the
source's argument construction verbatim. -/
def buildArgs (job : ConvertJob) (smartCopy : Bool) (vIn aIn : Option String) : List String :=
  let video := job.settings.video
  let args0 : List String :=
    ["ffmpeg", "-y", "-hide_banner", "-loglevel", "warning", "-i", pathStr job.src]
  let e := toExt job.dst.name
  if smartCopy && containerAllowsCodecs e vIn aIn then
    args0 ++ ["-map", "0", "-c", "copy", "-movflags", "+faststart"] ++ [pathStr job.dst]
  else if e = "mp4" || e = "mkv" || e = "mov" || e = "webm" then
    let vcodec := video.video_codec
    let preset := video.preset
    let crf := video.crf
    let tune := video.tune
    let acodec := video.audio_codec
    let abitrate := video.audio_bitrate
    let vcodec :=
      if e = "webm" && (vcodec = "libx264" || vcodec = "h264") then "libvpx-vp9" else vcodec
    let acodec :=
      if e = "webm" && acodec = some "aac" then some "libopus" else acodec
    let args1 := args0 ++ ["-map", "0"] ++ ["-c:v", vcodec, "-preset", preset, "-crf", toString crf]
    let args2 := args1 ++ (if pyTruthy tune then ["-tune", pyStrOr tune ""] else [])
    let args3 := args2 ++ (if pyTruthy acodec then ["-c:a", pyStrOr acodec ""] else [])
    let args4 := args3 ++
      (if pyTruthy abitrate &&
          !(acodec = some "flac" || acodec = some "pcm_s16le" || acodec = some "pcm_s24le") then
        ["-b:a", pyStrOr abitrate ""]
      else [])
    let args5 := args4 ++ (if e = "mp4" || e = "mov" then ["-movflags", "+faststart"] else [])
    args5 ++ [pathStr job.dst]
  else if e = "mp3" || e = "aac" || e = "flac" || e = "m4a" || e = "wav" || e = "ogg" then
    let acodec := acodecByExt e
    let abitrate := video.audio_bitrate
    let args1 := args0 ++ ["-vn", "-map", "0:a:0?"] ++ ["-c:a", acodec]
    let args2 := args1 ++
      (if !(e = "flac" || e = "wav") && pyTruthy abitrate then ["-b:a", pyStrOr abitrate ""] else [])
    args2 ++ [pathStr job.dst]
  else
    args0 ++ ["-map", "0", "-c", "copy"] ++ [pathStr job.dst]

/-- `_iter_files(root, recursive)`: yields `[root]` when root is a regular
file, else the regular files among the glob enumeration.  The order in which
`Path.glob`/`Path.rglob` enumerate a directory is decided by the operating
system and is passed in as `globbed`; the source applies no sort. -/
def iterFiles (rootIsFile : Bool) (root : PyPath) (globbed : List PyPath)
    (entryIsFile : PyPath → Bool) : List PyPath :=
  if rootIsFile then [root] else globbed.filter entryIsFile

/-- `_dst_path(src, base_out, new_ext)`:
`(base_out or src.parent) / src.stem`, then `with_suffix("." + new_ext.lstrip("."))`. -/
def dstPath (src : PyPath) (baseOut : Option (List Name)) (newExt : String) : PyPath :=
  let parent := baseOut.getD src.dir
  let ext := '.' :: lstripDots (chars newExt)
  { dir := parent, name := withSuffix (nameStem src.name) ext }

/-- The hidden/system-junk test in `plan_conversions`:
`f.name.startswith(".") or f.name.lower() in ("thumbs.db", "desktop.ini")`. -/
def isJunkName (n : Name) : Bool :=
  (match n with | c :: _ => c = '.' | [] => false) ||
    low n = chars "thumbs.db" || low n = chars "desktop.ini"

/-- The self-overwrite disambiguation: `dst.with_suffix(f".conv\x7bdst.suffix\x7d")`. -/
def mangleConv (dst : PyPath) : PyPath :=
  { dst with name := withSuffix dst.name (chars ".conv" ++ nameSuffix dst.name) }

/-- Errors `plan_conversions` can raise: `RuntimeError` from
`_require_ffmpeg`, or `FileNotFoundError(f"No input files found at: \x7bsrc\x7d")`. -/
inductive PlanError
  | ffmpegMissing
  | noInputFiles (root : PyPath)
deriving DecidableEq, Repr

/-- The per-file body of the planning loop: skip junk names, compute the
destination, and mangle it when it resolves to the source itself
(`resolve()` is the identity here). -/
def planJobs (files : List PyPath) (settings : ConvertSettings) : List ConvertJob :=
  files.filterMap (fun f =>
    if isJunkName f.name then none
    else
      let dst := dstPath f settings.output_dir settings.«to»
      let dst := if f = dst then mangleConv dst else dst
      some { src := f, dst := dst, settings := settings })

/-- `plan_conversions(src, settings)`.  `ffmpegOK` is whether
`_require_ffmpeg` finds both binaries; `files` is
`list(_iter_files(src, settings.recursive))` (see `iterFiles`). -/
def planConversions (ffmpegOK : Bool) (files : List PyPath) (root : PyPath)
    (settings : ConvertSettings) : Except PlanError (List ConvertJob) :=
  if !ffmpegOK then .error .ffmpegMissing
  else if files.isEmpty then .error (.noInputFiles root)
  else .ok (planJobs files settings)

/-- The contents of a regular file: its bytes and its modification time. -/
structure FileData where
  content : List Nat
  mtime : Int
deriving DecidableEq, Repr

/-- `st_size`. -/
def FileData.size (f : FileData) : Nat := f.content.length

/-- The filesystem: which file (if any) each path holds. -/
def FS := PyPath → Option FileData

/-- Point update of the filesystem (`unlink` writes `none`, a write or a
rename target writes `some data`). -/
def fsSet (fs : FS) (p : PyPath) (v : Option FileData) : FS :=
  fun q => if q = p then v else fs q

/-- `_is_up_to_date(src, dst)`: `dst` exists, has nonzero size, and its
mtime is not older than `src`'s.  A stat failure (`FileNotFoundError`,
here: `src` absent) yields `False`. -/
def isUpToDate (fs : FS) (src dst : PyPath) : Bool :=
  match fs dst with
  | none => false
  | some d =>
    match fs src with
    | none => false
    | some s => decide (0 < d.size) && decide (s.mtime ≤ d.mtime)

/-- The temporary output name:
`job.dst.with_suffix(job.dst.suffix + ".part")`. -/
def tmpName (n : Name) : Name := withSuffix n (nameSuffix n ++ chars ".part")

/-- The temporary sibling output path of a destination. -/
def tmpOut (dst : PyPath) : PyPath := { dst with name := tmpName dst.name }

/-- The argument list `_run_one` hands to the external process: `_build_args`
applied to the job with its destination replaced by the temporary path. -/
def runOneArgs (job : ConvertJob) (smartCopy : Bool) (vIn aIn : Option String) : List String :=
  buildArgs { src := job.src, dst := tmpOut job.dst, settings := job.settings } smartCopy vIn aIn

/-- The observable outcome of `_run_one`: the filesystem afterwards, the
returned success flag, whether the up-to-date skip fired, and whether the
external encoder process was invoked. -/
structure RunOutcome where
  fs : FS
  ok : Bool
  skipped : Bool
  invoked : Bool

/-- `_run_one(job, smart_copy=…, dry_run=…, skip_if_up_to_date=…)` as a
transition on the filesystem.  `rc` is the exit code of the external
process and `written` the file it leaves at the temporary path (the encoder
writes only its output path).  `ensure_dir` touches no files.  Every branch
returns; the enclosing `try/except` turns the `replace` of a missing
temporary file (success exit but nothing written) into a failure return. -/
def runOne (fs : FS) (job : ConvertJob) (smartCopy dryRun skipUpToDate : Bool)
    (rc : Int) (written : Option FileData) : RunOutcome :=
  if skipUpToDate && isUpToDate fs job.src job.dst then
    { fs := fs, ok := true, skipped := true, invoked := false }
  else
    let tmp := tmpOut job.dst
    let fs1 := fsSet fs tmp none
    if dryRun then
      { fs := fs1, ok := true, skipped := false, invoked := false }
    else
      let fs2 := fsSet fs1 tmp written
      if rc ≠ 0 then
        { fs := fsSet fs2 tmp none, ok := false, skipped := false, invoked := true }
      else
        match written with
        | none =>
          { fs := fsSet fs2 job.dst none, ok := false, skipped := false, invoked := true }
        | some w =>
          { fs := fsSet (fsSet (fsSet fs2 job.dst none) job.dst (some w)) tmp none,
            ok := true, skipped := false, invoked := true }

/-- The sequential branch of `convert_all` (`max_workers == 1`): fold the
jobs in order through the shared filesystem, counting successes.  `rc` and
`written` give each job's external-process behaviour. -/
def convertAllSeq (fs : FS) (jobs : List ConvertJob) (smartCopy dryRun skipUpToDate : Bool)
    (rc : ConvertJob → Int) (written : ConvertJob → Option FileData) : FS × Nat :=
  jobs.foldl
    (fun st j =>
      let o := runOne st.1 j smartCopy dryRun skipUpToDate (rc j) (written j)
      (o.fs, st.2 + (if o.ok then 1 else 0)))
    (fs, 0)

/-- The worker-pool branch of `convert_all`: each job's `_run_one` runs on
some interleaved filesystem state (`fsAt j`), and `as_completed` delivers
the results in an arbitrary completion order, which the counter folds over. -/
def convertAllPool (fsAt : ConvertJob → FS) (completionOrder : List ConvertJob)
    (smartCopy dryRun skipUpToDate : Bool)
    (rc : ConvertJob → Int) (written : ConvertJob → Option FileData) : Nat :=
  completionOrder.foldl
    (fun n j =>
      n + (if (runOne (fsAt j) j smartCopy dryRun skipUpToDate (rc j) (written j)).ok
        then 1 else 0))
    0

/-- Python `x or d` for an optional integer (`None` and `0` are falsy). -/
def pyIntOr (x : Option Int) (d : Int) : Int :=
  match x with
  | none => d
  | some n => if n = 0 then d else n

/-- Python `os.cpu_count() or 2` (`cpu_count` returns `None` or a count). -/
def pyNatOr (x : Option Nat) (d : Nat) : Nat :=
  match x with
  | none => d
  | some n => if n = 0 then d else n

/-- `max_workers = workers or max(1, (os.cpu_count() or 2) // 2)` from
`convert_all`. -/
def maxWorkers (workers : Option Int) (cpuCount : Option Nat) : Int :=
  pyIntOr workers (max 1 (Int.ofNat (pyNatOr cpuCount 2 / 2)))

/-- The default `ConvertVideoSettings` of `eyn_python.config`. -/
def defaultVideo : ConvertVideoSettings :=
  { crf := 23, preset := "medium", tune := none, video_codec := "libx264",
    audio_codec := some "aac", audio_bitrate := some "192k" }

/-- Settings with a given target format and the default video settings. -/
def mkSettings (fmt : String) : ConvertSettings :=
  { «to» := fmt, recursive := false, output_dir := none, video := defaultVideo }

/-- A concrete source path used to instantiate the general theorems. -/
def srcPathC : PyPath := { dir := [], name := chars "clip.mov" }

/-- A concrete destination path used to instantiate the general theorems. -/
def dstPathC : PyPath := { dir := [], name := chars "clip.mp4" }

/-- A concrete conversion job. -/
def jobC : ConvertJob := { src := srcPathC, dst := dstPathC, settings := mkSettings "mp4" }

/-- A filesystem holding exactly the concrete source file. -/
def fsSrcOnly : FS :=
  fun p => if p = srcPathC then some { content := [7], mtime := 0 } else none

/-- The in-place conversion job that planning `a.mp4 -> mp4` produces. -/
def jobA : ConvertJob :=
  { src := { dir := [], name := chars "a.mp4" },
    dst := { dir := [], name := chars "a.conv.mp4" },
    settings := mkSettings "mp4" }

/-- The skip specification for `_run_one` with `skip_if_up_to_date=True`:
the job is skipped exactly when the destination exists, is non-empty and is
not older than the source; a skip succeeds, does not invoke the external
process and leaves the filesystem untouched; and after a successful real
run that wrote non-empty, not-older output, a second run skips, does not
invoke the process and changes nothing. -/
def skipSpecHolds (fs : FS) (job : ConvertJob) (smartCopy dryRun : Bool) (rc : Int)
    (written : Option FileData) (sd : FileData) : Prop :=
  ((runOne fs job smartCopy dryRun true rc written).skipped = true ↔
    (∃ d, fs job.dst = some d ∧ 0 < d.size ∧ sd.mtime ≤ d.mtime)) ∧
  ((runOne fs job smartCopy dryRun true rc written).skipped = true →
    (runOne fs job smartCopy dryRun true rc written).ok = true ∧
    (runOne fs job smartCopy dryRun true rc written).invoked = false ∧
    ∀ p, (runOne fs job smartCopy dryRun true rc written).fs p = fs p) ∧
  (∀ w : FileData, 0 < w.size → sd.mtime ≤ w.mtime →
    ∀ (rc2 : Int) (w2 : Option FileData) (smart2 dry2 : Bool),
      (runOne (runOne fs job smartCopy false true 0 (some w)).fs
          job smart2 dry2 true rc2 w2).skipped = true ∧
      (runOne (runOne fs job smartCopy false true 0 (some w)).fs
          job smart2 dry2 true rc2 w2).invoked = false ∧
      ∀ p, (runOne (runOne fs job smartCopy false true 0 (some w)).fs
          job smart2 dry2 true rc2 w2).fs p =
        (runOne fs job smartCopy false true 0 (some w)).fs p)

/-- Strict lexicographic order on character lists (by code point). -/
def lexLtChars : Name → Name → Bool
  | [], [] => false
  | [], _ :: _ => true
  | _ :: _, [] => false
  | a :: as, b :: bs => a < b || (a = b && lexLtChars as bs)

/-- Sorted-by-path comparison: lexicographic order on the rendered path. -/
def pathLe (p q : PyPath) : Bool :=
  lexLtChars (chars (pathStr p)) (chars (pathStr q)) || pathStr p = pathStr q

/-! ## Helper lemmas -/

/-- `splitLast` really splits at a dot. -/
theorem splitLast_eq_append (n : Name) :
    ∀ p s, splitLast n = some (p, s) → n = p ++ '.' :: s := by
  induction n with
  | nil => intro p s h; simp [splitLast] at h
  | cons c rest ih =>
    intro p s h
    unfold splitLast at h
    cases hr : splitLast rest with
    | some ps =>
      obtain ⟨p', s'⟩ := ps
      rw [hr] at h
      simp only [Option.some.injEq, Prod.mk.injEq] at h
      obtain ⟨hp, hs⟩ := h
      subst hp
      subst hs
      rw [ih p' s' hr]
      rfl
    | none =>
      rw [hr] at h
      by_cases hc : c = '.'
      · rw [if_pos hc] at h
        simp only [Option.some.injEq, Prod.mk.injEq] at h
        obtain ⟨hp, hs⟩ := h
        subst hp
        subst hs
        rw [hc]
        rfl
      · rw [if_neg hc] at h
        exact absurd h (by simp)

/-- A file name is its stem followed by its suffix. -/
theorem nameStem_append_nameSuffix (n : Name) : nameStem n ++ nameSuffix n = n := by
  unfold nameStem nameSuffix
  cases h : splitLast n with
  | none => simp
  | some ps =>
    obtain ⟨p, s⟩ := ps
    dsimp only
    by_cases hps : p ≠ [] ∧ s ≠ []
    · rw [if_pos hps, if_pos hps]
      exact (splitLast_eq_append n p s h).symm
    · simp [hps]

/-- The temporary output name is the destination name with `.part` appended. -/
theorem tmpName_eq_append (n : Name) : tmpName n = n ++ chars ".part" := by
  unfold tmpName withSuffix
  rw [← List.append_assoc, nameStem_append_nameSuffix]

/-- The temporary output path differs from the destination path. -/
theorem tmpOut_ne (p : PyPath) : tmpOut p ≠ p := by
  intro h
  have hn : tmpName p.name = p.name := congrArg PyPath.name h
  rw [tmpName_eq_append] at hn
  have hl := congrArg List.length hn
  simp [chars] at hl

/-- The `.conv`-mangled destination differs from the original destination. -/
theorem mangleConv_ne (p : PyPath) : mangleConv p ≠ p := by
  intro h
  have hn : withSuffix p.name (chars ".conv" ++ nameSuffix p.name) = p.name :=
    congrArg PyPath.name h
  unfold withSuffix at hn
  have hl := congrArg List.length hn
  rw [List.length_append, List.length_append] at hl
  have hb := congrArg List.length (nameStem_append_nameSuffix p.name)
  rw [List.length_append] at hb
  have h5 : (chars ".conv").length = 5 := rfl
  omega

/-- Reading the path just written. -/
theorem fsSet_same (fs : FS) (p : PyPath) (v : Option FileData) : fsSet fs p v p = v := by
  simp [fsSet]

/-- Reading a different path is unaffected. -/
theorem fsSet_other (fs : FS) (p : PyPath) (v : Option FileData) (q : PyPath) (h : q ≠ p) :
    fsSet fs p v q = fs q := by
  simp [fsSet, h]

/-- `_run_one` when the up-to-date skip fires. -/
theorem runOne_skip_eq (fs : FS) (job : ConvertJob) (smartCopy dryRun skipUpToDate : Bool)
    (rc : Int) (written : Option FileData)
    (h : (skipUpToDate && isUpToDate fs job.src job.dst) = true) :
    runOne fs job smartCopy dryRun skipUpToDate rc written =
      { fs := fs, ok := true, skipped := true, invoked := false } := by
  simp [runOne, h]

/-- `_run_one` on a dry run (skip not fired): only the stale temporary file
is removed, the job counts as success, nothing is invoked. -/
theorem runOne_noskip_dry (fs : FS) (job : ConvertJob) (smartCopy skipUpToDate : Bool)
    (rc : Int) (written : Option FileData)
    (h : (skipUpToDate && isUpToDate fs job.src job.dst) = false) :
    runOne fs job smartCopy true skipUpToDate rc written =
      { fs := fsSet fs (tmpOut job.dst) none, ok := true, skipped := false, invoked := false } := by
  simp [runOne, h]

/-- `_run_one` when the external process fails. -/
theorem runOne_noskip_fail (fs : FS) (job : ConvertJob) (smartCopy skipUpToDate : Bool)
    (rc : Int) (written : Option FileData)
    (h : (skipUpToDate && isUpToDate fs job.src job.dst) = false) (hrc : rc ≠ 0) :
    runOne fs job smartCopy false skipUpToDate rc written =
      { fs := fsSet (fsSet (fsSet fs (tmpOut job.dst) none) (tmpOut job.dst) written)
          (tmpOut job.dst) none,
        ok := false, skipped := false, invoked := true } := by
  simp [runOne, h, hrc]

/-- `_run_one` when the external process succeeds and wrote its output. -/
theorem runOne_noskip_zero_some (fs : FS) (job : ConvertJob) (smartCopy skipUpToDate : Bool)
    (w : FileData)
    (h : (skipUpToDate && isUpToDate fs job.src job.dst) = false) :
    runOne fs job smartCopy false skipUpToDate 0 (some w) =
      { fs := fsSet (fsSet (fsSet (fsSet (fsSet fs (tmpOut job.dst) none)
            (tmpOut job.dst) (some w)) job.dst none) job.dst (some w)) (tmpOut job.dst) none,
        ok := true, skipped := false, invoked := true } := by
  simp [runOne, h]

/-- `_run_one` when the external process exits 0 without writing its output:
the pre-existing destination is removed, then `replace` raises and the
handler records a failure. -/
theorem runOne_noskip_zero_none (fs : FS) (job : ConvertJob) (smartCopy skipUpToDate : Bool)
    (h : (skipUpToDate && isUpToDate fs job.src job.dst) = false) :
    runOne fs job smartCopy false skipUpToDate 0 none =
      { fs := fsSet (fsSet (fsSet fs (tmpOut job.dst) none) (tmpOut job.dst) none) job.dst none,
        ok := false, skipped := false, invoked := true } := by
  simp [runOne, h]

/-- The skip flag of `_run_one` is exactly the up-to-date condition. -/
theorem runOne_skipped_eq (fs : FS) (job : ConvertJob) (smartCopy dryRun skipUpToDate : Bool)
    (rc : Int) (written : Option FileData) :
    (runOne fs job smartCopy dryRun skipUpToDate rc written).skipped =
      (skipUpToDate && isUpToDate fs job.src job.dst) := by
  cases h : (skipUpToDate && isUpToDate fs job.src job.dst) with
  | true => rw [runOne_skip_eq fs job smartCopy dryRun skipUpToDate rc written h]
  | false =>
    cases dryRun with
    | true => rw [runOne_noskip_dry fs job smartCopy skipUpToDate rc written h]
    | false =>
      by_cases hrc : rc = 0
      · subst hrc
        cases written with
        | none => rw [runOne_noskip_zero_none fs job smartCopy skipUpToDate h]
        | some w => rw [runOne_noskip_zero_some fs job smartCopy skipUpToDate w h]
      · rw [runOne_noskip_fail fs job smartCopy skipUpToDate rc written h hrc]

/-- `_is_up_to_date` unfolded, given that the source file exists. -/
theorem isUpToDate_iff (fs : FS) (src dst : PyPath) (sd : FileData)
    (hsrc : fs src = some sd) :
    isUpToDate fs src dst = true ↔
      ∃ d, fs dst = some d ∧ 0 < d.size ∧ sd.mtime ≤ d.mtime := by
  unfold isUpToDate
  cases hd : fs dst with
  | none => simp
  | some d => rw [hsrc]; simp

/-! ## Claim theorems -/

/-- C1: evaluation of the executed command at a failing input.  `_run_one`
passes the temporary path (`clip.mp4.part`) to `_build_args`, so the
extension it branches on is `part`: an mp4-target job with a compatible
h264/aac source does not take the remux path, and with an incompatible
mpeg2video/mp2 source it does not take the mp4 encode path — both fall
into the unknown-container stream-copy branch. -/
theorem C1_exec_branch_eval :
    runOneArgs jobC true (some "h264") (some "aac") =
      ["ffmpeg", "-y", "-hide_banner", "-loglevel", "warning", "-i", "clip.mov",
        "-map", "0", "-c", "copy", "clip.mp4.part"] ∧
    runOneArgs jobC true (some "mpeg2video") (some "mp2") =
      ["ffmpeg", "-y", "-hide_banner", "-loglevel", "warning", "-i", "clip.mov",
        "-map", "0", "-c", "copy", "clip.mp4.part"] ∧
    toExt (tmpName (chars "clip.mp4")) = "part" := by
  refine ⟨by decide, by decide, by decide⟩

/-- C3: the compatibility heuristic rejects every audio-only copy.  After
`v = (vcodec or "").lower()` the variable `v` is a `str`, so the audio-only
branches' `v is None` test is always `False`: even an absent video codec
with a matching audio codec yields `False` for every audio-only container. -/
theorem C3_audio_only_never_allowed :
    containerAllowsCodecs "mp3" none (some "mp3") = false ∧
    containerAllowsCodecs "m4a" none (some "aac") = false ∧
    containerAllowsCodecs "m4a" none (some "alac") = false ∧
    containerAllowsCodecs "ogg" none (some "vorbis") = false ∧
    containerAllowsCodecs "ogg" none (some "opus") = false ∧
    containerAllowsCodecs "flac" none (some "flac") = false ∧
    containerAllowsCodecs "wav" none (some "pcm_s16le") = false := by
  decide

/-- C2: when the external process exits non-zero (and the job was neither
skipped nor a dry run), `_run_one` reports failure, the temporary `.part`
path ends up absent, and the destination path holds exactly what it held
before the run. -/
theorem C2_failed_run_preserves_destination
    (fs : FS) (job : ConvertJob) (smartCopy skipUpToDate : Bool)
    (rc : Int) (written : Option FileData)
    (hskip : (skipUpToDate && isUpToDate fs job.src job.dst) = false)
    (hrc : rc ≠ 0) :
    (runOne fs job smartCopy false skipUpToDate rc written).ok = false ∧
    (runOne fs job smartCopy false skipUpToDate rc written).fs (tmpOut job.dst) = none ∧
    (runOne fs job smartCopy false skipUpToDate rc written).fs job.dst = fs job.dst := by
  rw [runOne_noskip_fail fs job smartCopy skipUpToDate rc written hskip hrc]
  have hne : job.dst ≠ tmpOut job.dst := fun h => tmpOut_ne job.dst h.symm
  refine ⟨rfl, fsSet_same _ _ _, ?_⟩
  show fsSet (fsSet (fsSet fs (tmpOut job.dst) none) (tmpOut job.dst) written)
      (tmpOut job.dst) none job.dst = fs job.dst
  rw [fsSet_other _ _ _ _ hne, fsSet_other _ _ _ _ hne, fsSet_other _ _ _ _ hne]

/-- C2, instantiated: a failing conversion of `clip.mov` to `clip.mp4`
leaves the (absent) destination absent and no `.part` file behind. -/
theorem C2_failed_run_preserves_destination_witness :
    (runOne fsSrcOnly jobC true false true 1 (some { content := [1], mtime := 5 })).ok = false ∧
    (runOne fsSrcOnly jobC true false true 1
        (some { content := [1], mtime := 5 })).fs (tmpOut jobC.dst) = none ∧
    (runOne fsSrcOnly jobC true false true 1
        (some { content := [1], mtime := 5 })).fs jobC.dst = fsSrcOnly jobC.dst :=
  C2_failed_run_preserves_destination fsSrcOnly jobC true true 1
    (some { content := [1], mtime := 5 }) (by decide) (by decide)

/-- C4 fails on the code: a directory whose only discovered file is hidden
junk produces an empty job list without raising, because the emptiness
check in `plan_conversions` runs on the discovery result before the junk
filter is applied. -/
theorem C4_all_junk_ok_empty_counterexample :
    planConversions true
      (iterFiles false { dir := [], name := chars "media" }
        [{ dir := [chars "media"], name := chars ".DS_Store" }] (fun _ => true))
      { dir := [], name := chars "media" } (mkSettings "mp4") =
      Except.ok [] := rfl

/-- C4 amended: `plan_conversions` raises `NoInputFiles` exactly when
discovery yields zero files before junk filtering; a non-empty discovery
result consisting only of junk names yields the empty job list without
raising. -/
theorem C4_empty_check_precedes_junk_filter
    (files : List PyPath) (root : PyPath) (settings : ConvertSettings)
    (h : ∀ f ∈ files, isJunkName f.name = true) :
    planConversions true files root settings =
      (if files.isEmpty then Except.error (PlanError.noInputFiles root) else Except.ok []) := by
  have hjobs : planJobs files settings = [] := by
    unfold planJobs
    rw [List.filterMap_eq_nil_iff]
    intro f hf
    rw [if_pos (h f hf)]
  by_cases hemp : files.isEmpty
  · simp [planConversions, hemp]
  · simp [planConversions, hemp, hjobs]

/-- C4 amended, instantiated at a junk-only discovery result. -/
theorem C4_empty_check_precedes_junk_filter_witness :
    planConversions true [{ dir := [], name := chars ".hidden" }]
      { dir := [], name := chars "media" } (mkSettings "mp4") =
      (if ([{ dir := ([] : List Name), name := chars ".hidden" }] : List PyPath).isEmpty then
        Except.error (PlanError.noInputFiles { dir := [], name := chars "media" })
      else Except.ok []) :=
  C4_empty_check_precedes_junk_filter [{ dir := [], name := chars ".hidden" }]
    { dir := [], name := chars "media" } (mkSettings "mp4") (by decide)

/-- C6: every planned job's destination differs from its source (with
`resolve` the identity), and when the naive destination equals the source
the planner returns the `.conv`-mangled destination. -/
theorem C6_planned_dst_ne_src
    (files : List PyPath) (settings : ConvertSettings) (j : ConvertJob)
    (hj : j ∈ planJobs files settings) :
    j.dst ≠ j.src ∧
      (dstPath j.src settings.output_dir settings.«to» = j.src →
        j.dst = mangleConv (dstPath j.src settings.output_dir settings.«to»)) := by
  unfold planJobs at hj
  rw [List.mem_filterMap] at hj
  obtain ⟨f, hf, heq⟩ := hj
  by_cases hjunk : isJunkName f.name = true
  · rw [if_pos hjunk] at heq
    exact absurd heq (by simp)
  · rw [if_neg hjunk] at heq
    simp only [Option.some.injEq] at heq
    subst heq
    dsimp only
    by_cases hcol : f = dstPath f settings.output_dir settings.«to»
    · rw [if_pos hcol]
      constructor
      · exact fun h => mangleConv_ne _ (h.trans hcol)
      · intro _
        rfl
    · rw [if_neg hcol]
      constructor
      · exact fun h => hcol h.symm
      · intro hAf
        exact (hcol hAf.symm).elim

/-- C6, instantiated: converting `a.mp4` to mp4 in place plans the
destination `a.conv.mp4`, which differs from the source. -/
theorem C6_planned_dst_ne_src_witness :
    jobA.dst ≠ jobA.src ∧
      (dstPath jobA.src (mkSettings "mp4").output_dir (mkSettings "mp4").«to» = jobA.src →
        jobA.dst =
          mangleConv (dstPath jobA.src (mkSettings "mp4").output_dir (mkSettings "mp4").«to»)) :=
  C6_planned_dst_ne_src [{ dir := [], name := chars "a.mp4" }] (mkSettings "mp4") jobA
    (by decide)

/-- C5: with `skip_if_up_to_date` enabled, a job is skipped exactly when
its destination exists, is non-empty and is not older than the source; a
skip counts as success, invokes no external process and leaves the
filesystem untouched; and after a successful real run that wrote non-empty
output not older than the source, a second run skips with zero external
invocations and no filesystem change (see `skipSpecHolds`). -/
theorem C5_skip_iff_up_to_date
    (fs : FS) (job : ConvertJob) (smartCopy dryRun : Bool) (rc : Int)
    (written : Option FileData) (sd : FileData)
    (hsrc : fs job.src = some sd)
    (hds : job.dst ≠ job.src) (hts : tmpOut job.dst ≠ job.src) :
    skipSpecHolds fs job smartCopy dryRun rc written sd := by
  have hsk := runOne_skipped_eq fs job smartCopy dryRun true rc written
  rw [Bool.true_and] at hsk
  refine ⟨?_, ?_, ?_⟩
  · rw [hsk]
    exact isUpToDate_iff fs job.src job.dst sd hsrc
  · intro hskip
    rw [hsk] at hskip
    have hc : (true && isUpToDate fs job.src job.dst) = true := by
      rw [Bool.true_and, hskip]
    rw [runOne_skip_eq fs job smartCopy dryRun true rc written hc]
    exact ⟨rfl, rfl, fun _ => rfl⟩
  · intro w hw1 hw2 rc2 w2 smart2 dry2
    by_cases hc : (true && isUpToDate fs job.src job.dst) = true
    · rw [runOne_skip_eq fs job smartCopy false true 0 (some w) hc]
      rw [runOne_skip_eq fs job smart2 dry2 true rc2 w2 hc]
      exact ⟨rfl, rfl, fun _ => rfl⟩
    · have hc' : (true && isUpToDate fs job.src job.dst) = false := by
        cases h : (true && isUpToDate fs job.src job.dst) with
        | false => rfl
        | true => exact absurd h hc
      have hne : job.dst ≠ tmpOut job.dst := fun h => tmpOut_ne job.dst h.symm
      have hsd : job.src ≠ job.dst := Ne.symm hds
      have hst : job.src ≠ tmpOut job.dst := Ne.symm hts
      rw [runOne_noskip_zero_some fs job smartCopy true w hc']
      dsimp only
      have hdst : (fsSet (fsSet (fsSet (fsSet (fsSet fs (tmpOut job.dst) none)
          (tmpOut job.dst) (some w)) job.dst none) job.dst (some w)) (tmpOut job.dst) none)
          job.dst = some w := by
        rw [fsSet_other _ _ _ _ hne, fsSet_same]
      have hsrc2 : (fsSet (fsSet (fsSet (fsSet (fsSet fs (tmpOut job.dst) none)
          (tmpOut job.dst) (some w)) job.dst none) job.dst (some w)) (tmpOut job.dst) none)
          job.src = some sd := by
        rw [fsSet_other _ _ _ _ hst, fsSet_other _ _ _ _ hsd, fsSet_other _ _ _ _ hsd,
          fsSet_other _ _ _ _ hst, fsSet_other _ _ _ _ hst, hsrc]
      have hut : isUpToDate (fsSet (fsSet (fsSet (fsSet (fsSet fs (tmpOut job.dst) none)
          (tmpOut job.dst) (some w)) job.dst none) job.dst (some w)) (tmpOut job.dst) none)
          job.src job.dst = true :=
        (isUpToDate_iff _ job.src job.dst sd hsrc2).mpr ⟨w, hdst, hw1, hw2⟩
      have hc2 : (true && isUpToDate (fsSet (fsSet (fsSet (fsSet (fsSet fs
          (tmpOut job.dst) none) (tmpOut job.dst) (some w)) job.dst none) job.dst (some w))
          (tmpOut job.dst) none) job.src job.dst) = true := by
        rw [Bool.true_and]
        exact hut
      rw [runOne_skip_eq _ job smart2 dry2 true rc2 w2 hc2]
      exact ⟨rfl, rfl, fun _ => rfl⟩

/-- C5, instantiated: source `clip.mov` present, destination absent. -/
theorem C5_skip_iff_up_to_date_witness :
    skipSpecHolds fsSrcOnly jobC true false 1 none { content := [7], mtime := 0 } :=
  C5_skip_iff_up_to_date fsSrcOnly jobC true false 1 none { content := [7], mtime := 0 }
    (by decide) (by decide) (by decide)

/-- C7 fails on the code: for an mkv target with compatible codecs the
smart-copy remux branch is taken and its command does include
`-movflags +faststart`, although mkv is neither mp4 nor mov. -/
theorem C7_mkv_remux_has_faststart_counterexample :
    containerAllowsCodecs "mkv" (some "h264") (some "aac") = true ∧
    buildArgs
        { src := srcPathC, dst := { dir := [], name := chars "out.mkv" },
          settings := mkSettings "mkv" }
        true (some "h264") (some "aac") =
      ["ffmpeg", "-y", "-hide_banner", "-loglevel", "warning", "-i", "clip.mov",
        "-map", "0", "-c", "copy", "-movflags", "+faststart", "out.mkv"] := by
  refine ⟨by decide, by decide⟩

/-- C7 amended: the smart-copy remux branch emits the same copy command,
`-movflags +faststart` included, for every target container whose codecs
pass the compatibility heuristic — the flag is unconditional there. -/
theorem C7_remux_always_faststart
    (job : ConvertJob) (vIn aIn : Option String)
    (h : containerAllowsCodecs (toExt job.dst.name) vIn aIn = true) :
    buildArgs job true vIn aIn =
      ["ffmpeg", "-y", "-hide_banner", "-loglevel", "warning", "-i", pathStr job.src] ++
        ["-map", "0", "-c", "copy", "-movflags", "+faststart"] ++ [pathStr job.dst] := by
  simp only [buildArgs, Bool.true_and]
  rw [if_pos h]

/-- C7 amended, instantiated at the mkv remux job. -/
theorem C7_remux_always_faststart_witness :
    buildArgs
        { src := srcPathC, dst := { dir := [], name := chars "out.mkv" },
          settings := mkSettings "mkv" }
        true (some "h264") (some "aac") =
      ["ffmpeg", "-y", "-hide_banner", "-loglevel", "warning", "-i",
        pathStr srcPathC] ++
        ["-map", "0", "-c", "copy", "-movflags", "+faststart"] ++
        [pathStr { dir := [], name := chars "out.mkv" }] :=
  C7_remux_always_faststart
    { src := srcPathC, dst := { dir := [], name := chars "out.mkv" },
      settings := mkSettings "mkv" }
    (some "h264") (some "aac") (by decide)

/-- C8 fails on the code: `_iter_files` hands back the operating system's
enumeration order unchanged, so an enumeration that lists `d/b` before
`d/a` produces a discovery sequence that is not sorted by path. -/
theorem C8_discovery_unsorted_counterexample :
    iterFiles false { dir := [], name := chars "d" }
        [{ dir := [chars "d"], name := chars "b" },
          { dir := [chars "d"], name := chars "a" }] (fun _ => true) =
      [{ dir := [chars "d"], name := chars "b" },
        { dir := [chars "d"], name := chars "a" }] ∧
    ¬ List.Sorted (fun p q : PyPath => pathLe p q = true)
        [{ dir := [chars "d"], name := chars "b" },
          { dir := [chars "d"], name := chars "a" }] := by
  refine ⟨by decide, by decide⟩

/-- C8 amended: discovery returns the enumeration filtered to regular
files, in enumeration order, and the planner's job list carries exactly the
non-junk discovered files as sources, in that same order. -/
theorem C8_plan_preserves_discovery_order
    (rootIsFile : Bool) (root : PyPath) (globbed : List PyPath)
    (entryIsFile : PyPath → Bool) (settings : ConvertSettings) :
    (planJobs (iterFiles rootIsFile root globbed entryIsFile) settings).map ConvertJob.src =
      (iterFiles rootIsFile root globbed entryIsFile).filter (fun f => !isJunkName f.name) ∧
    iterFiles false root globbed entryIsFile = globbed.filter entryIsFile := by
  constructor
  · generalize iterFiles rootIsFile root globbed entryIsFile = files
    induction files with
    | nil => rfl
    | cons f fs ih =>
      by_cases hj : isJunkName f.name = true
      · simp only [planJobs, List.filterMap_cons, if_pos hj] at ih ⊢
        rw [List.filter_cons]
        simp only [hj, Bool.not_true, Bool.false_eq_true, if_false]
        exact ih
      · simp only [planJobs, List.filterMap_cons, if_neg hj] at ih ⊢
        rw [List.filter_cons]
        have hj' : (!isJunkName f.name) = true := by
          cases h : isJunkName f.name with
          | false => rfl
          | true => exact absurd h hj
        simp only [hj', if_pos]
        rw [List.map_cons]
        exact congrArg (List.cons f) ih
  · rfl

/-- On a dry run `_run_one` always reports success. -/
theorem runOne_dry_ok (fs : FS) (job : ConvertJob) (smartCopy skipUpToDate : Bool)
    (rc : Int) (written : Option FileData) :
    (runOne fs job smartCopy true skipUpToDate rc written).ok = true := by
  cases h : (skipUpToDate && isUpToDate fs job.src job.dst) with
  | true => rw [runOne_skip_eq fs job smartCopy true skipUpToDate rc written h]
  | false => rw [runOne_noskip_dry fs job smartCopy skipUpToDate rc written h]

/-- The sequential dry-run fold counts every job as a success. -/
theorem convertAllSeq_dry_count (jobs : List ConvertJob) (fs : FS)
    (smartCopy skipUpToDate : Bool)
    (rc : ConvertJob → Int) (written : ConvertJob → Option FileData) :
    (convertAllSeq fs jobs smartCopy true skipUpToDate rc written).2 = jobs.length := by
  suffices hgen : ∀ (st : FS × Nat),
      (jobs.foldl (fun st j =>
        let o := runOne st.1 j smartCopy true skipUpToDate (rc j) (written j)
        (o.fs, st.2 + (if o.ok then 1 else 0))) st).2 = st.2 + jobs.length by
    have := hgen (fs, 0)
    simpa [convertAllSeq] using this
  induction jobs with
  | nil => intro st; simp
  | cons j js ih =>
    intro st
    rw [List.foldl_cons, ih]
    dsimp only
    rw [runOne_dry_ok st.1 j smartCopy skipUpToDate (rc j) (written j)]
    simp only [eq_self_iff_true, if_true, List.length_cons]
    omega

/-- The pooled dry-run count also counts every delivered result as a
success. -/
theorem convertAllPool_dry_count (order : List ConvertJob) (fsAt : ConvertJob → FS)
    (smartCopy skipUpToDate : Bool)
    (rc : ConvertJob → Int) (written : ConvertJob → Option FileData) :
    convertAllPool fsAt order smartCopy true skipUpToDate rc written = order.length := by
  suffices hgen : ∀ (n : Nat),
      (order.foldl (fun n j =>
        n + (if (runOne (fsAt j) j smartCopy true skipUpToDate (rc j) (written j)).ok
          then 1 else 0)) n) = n + order.length by
    simpa [convertAllPool] using hgen 0
  induction order with
  | nil => intro n; simp
  | cons j js ih =>
    intro n
    rw [List.foldl_cons, ih]
    rw [runOne_dry_ok (fsAt j) j smartCopy skipUpToDate (rc j) (written j)]
    simp only [eq_self_iff_true, if_true, List.length_cons]
    omega

/-- C9: for a dry run, the sequential branch of `convert_all` and the
worker-pool branch (results delivered in any completion order, each job
observing any interleaved filesystem state) produce the same aggregate
success count. -/
theorem C9_dry_run_count_worker_invariant
    (fs : FS) (fsAt : ConvertJob → FS) (jobs order : List ConvertJob)
    (smartCopy smart2 skipUpToDate skip2 : Bool)
    (rc rc2 : ConvertJob → Int) (written written2 : ConvertJob → Option FileData)
    (hperm : order.Perm jobs) :
    (convertAllSeq fs jobs smartCopy true skipUpToDate rc written).2 =
      convertAllPool fsAt order smart2 true skip2 rc2 written2 := by
  rw [convertAllSeq_dry_count jobs fs smartCopy skipUpToDate rc written]
  rw [convertAllPool_dry_count order fsAt smart2 skip2 rc2 written2]
  exact (List.Perm.length_eq hperm).symm

/-- C9, instantiated: two jobs, pool results arriving in reversed order. -/
theorem C9_dry_run_count_worker_invariant_witness :
    (convertAllSeq fsSrcOnly [jobC, jobA] true true true (fun _ => 0)
        (fun _ => none)).2 =
      convertAllPool (fun _ => fsSrcOnly) [jobA, jobC] false true false (fun _ => 1)
        (fun _ => none) :=
  C9_dry_run_count_worker_invariant fsSrcOnly (fun _ => fsSrcOnly) [jobC, jobA]
    [jobA, jobC] true false true false (fun _ => 0) (fun _ => 1) (fun _ => none)
    (fun _ => none) (List.Perm.swap jobC jobA [])

/-- C10: passing `workers=0` to `convert_all` selects the same effective
pool size as passing no worker count (Python `0` is falsy in `workers or
default`); the fallback is `max(1, cpu_count // 2)` with `cpu_count`
defaulting to 2, so it is at least 1; and the effective worker count is
never zero for any argument. -/
theorem C10_workers_zero_falls_back (cpuCount : Option Nat) :
    maxWorkers (some 0) cpuCount = maxWorkers none cpuCount ∧
    1 ≤ maxWorkers none cpuCount ∧
    ∀ workers : Option Int, maxWorkers workers cpuCount ≠ 0 := by
  have h1 : (1 : Int) ≤ max 1 (Int.ofNat (pyNatOr cpuCount 2 / 2)) := le_max_left 1 _
  refine ⟨rfl, ?_, ?_⟩
  · unfold maxWorkers pyIntOr
    dsimp only
    exact h1
  · intro workers
    cases workers with
    | none =>
      unfold maxWorkers pyIntOr
      dsimp only
      exact (lt_of_lt_of_le zero_lt_one h1).ne'
    | some n =>
      unfold maxWorkers pyIntOr
      dsimp only
      by_cases hn : n = 0
      · rw [if_pos hn]
        exact (lt_of_lt_of_le zero_lt_one h1).ne'
      · rw [if_neg hn]
        exact hn

end EynConvert
